import Mathlib

/-!
Shallow embedding of `src/main.go` (kevcoxe/cli-tool-kit): a terminal menu
that captures a Vault token, lets the operator pick a category and a server,
and runs the configured script, folding asynchronous results back into the
model.  Go maps are embedded as association lists (Go map access on a missing
key yields the zero value, embedded by `lookupCat` / `lookupServer`); Go's
`sort.Strings` is embedded by insertion sort on `String` (UTF-8 byte order
agrees with the code-point order used by Lean's `≤` on `String`); Go `len`
on a string is the UTF-8 byte count, embedded by `String.utf8ByteSize`.
Lipgloss style `Render` calls add content-independent decoration around the
text; they are embedded as the identity on the text.
-/

namespace CliToolKit

/-- `ServerConfig` from src/main.go: per-server script definition. -/
structure ServerConfig where
  Script : String
  ScriptPath : String
  ScriptArgs : List String
  EnvVars : List (String × String)
  Description : String
deriving Repr, DecidableEq

/-- The Go zero value of `ServerConfig`. -/
def ServerConfig.zero : ServerConfig := ⟨"", "", [], [], ""⟩

/-- `CategoryConfig` from src/main.go: a category's description and servers. -/
structure CategoryConfig where
  Description : String
  Servers : List (String × ServerConfig)
deriving Repr, DecidableEq

/-- The Go zero value of `CategoryConfig`. -/
def CategoryConfig.zero : CategoryConfig := ⟨"", []⟩

/-- `Config` from src/main.go: the `categories` mapping. -/
structure Config where
  Categories : List (String × CategoryConfig)
deriving Repr, DecidableEq

/-- The Go zero value of `Config` (nil map). -/
def Config.zero : Config := ⟨[]⟩

/-- `AppState` from src/main.go. -/
inductive AppState where
  | StateVaultTokenInput
  | StateCategorySelection
  | StateServerSelection
  | StateScriptOutput
deriving Repr, DecidableEq

/-- `ServerModel` from src/main.go: the whole bubbletea model.
Cursors are embedded as `Int` (Go `int`), so "never negative" is a real
statement. -/
structure ServerModel where
  config : Config
  categoryNames : List String
  serverNames : List String
  categoryCursor : Int
  serverCursor : Int
  selectedCategory : String
  selectedServer : String
  state : AppState
  runOutput : String
  hasError : Bool
  errorMessage : String
  vaultToken : String
  vaultTokenInput : String
  pasteError : String
deriving Repr, DecidableEq

/-- The Go zero value of `ServerModel` (`AppState` zero value is
`StateVaultTokenInput`, the iota-0 constant). -/
def ServerModel.zero : ServerModel :=
  ⟨Config.zero, [], [], 0, 0, "", "", AppState.StateVaultTokenInput,
   "", false, "", "", "", ""⟩

/-- Go map access `config.Categories[name]`: the first binding of the key,
or the zero value when the key is absent (Go map semantics). -/
def lookupCat : List (String × CategoryConfig) → String → CategoryConfig
  | [], _ => CategoryConfig.zero
  | (k, v) :: rest, key => if k = key then v else lookupCat rest key

/-- Go map access `category.Servers[name]`, zero value when absent. -/
def lookupServer : List (String × ServerConfig) → String → ServerConfig
  | [], _ => ServerConfig.zero
  | (k, v) :: rest, key => if k = key then v else lookupServer rest key

/-- Decidability of `≤` on `String` through the character-list order, which
(unlike `String.ltb`) the kernel can evaluate. -/
def decStrLe (a b : String) : Decidable (a ≤ b) :=
  decidable_of_iff (a.toList ≤ b.toList) String.le_iff_toList_le.symm

/-- `sort.Strings` from src/main.go: ascending lexicographic sort.  UTF-8
byte order (Go) coincides with the code-point order of Lean's `≤`. -/
def sortStrings (l : List String) : List String :=
  @List.insertionSort String (· ≤ ·) (fun a b => decStrLe a b) l

/-- The messages consumed by `ServerModel.Update` in src/main.go. `key`
covers `tea.KeyMsg` through its `msg.String()` form. -/
inductive Msg where
  | key (s : String)
  | vaultToken (t : String)
  | vaultTokenMissing
  | scriptOutput (s : String)
  | scriptError (s : String)
  | configError (s : String)
deriving Repr, DecidableEq

/-- The effects `Update` triggers: `tea.Quit`, `os.Setenv` (performed
synchronously inside `Update` on token commit), and the `runServerScript`
command. -/
inductive Eff where
  | quit
  | setEnv (k v : String)
  | runScript (server : String) (cfg : ServerConfig) (token : String)
deriving Repr, DecidableEq

/-- The `tea.KeyMsg` part of `ServerModel.Update` (src/main.go lines
111-213), state by state.  `clip` is the outcome of `clipboard.ReadAll`,
which the Go code performs synchronously inside the update on ctrl+v/cmd+v.
Go's `m.vaultTokenInput[:len-1]` truncates one byte; on the buffers the
program builds from one-byte keys this agrees with dropping one character.
`List.getD` stands for Go slice indexing (Go panics out of range; every
reachable index here is in range, see the cursor invariant below). -/
def updateKey (clip : Except String String) (m : ServerModel) (s : String) :
    ServerModel × List Eff :=
  match m.state with
  | AppState.StateVaultTokenInput =>
    let m := { m with pasteError := "" }
    if s = "ctrl+c" ∨ s = "q" then (m, [Eff.quit])
    else if s = "enter" then
      if m.vaultTokenInput ≠ "" then
        ({ m with vaultToken := m.vaultTokenInput,
                  state := AppState.StateCategorySelection },
         [Eff.setEnv "VAULT_TOKEN" m.vaultTokenInput])
      else (m, [])
    else if s = "ctrl+v" ∨ s = "cmd+v" then
      match clip with
      | Except.ok text =>
        ({ m with vaultTokenInput := m.vaultTokenInput ++ text }, [])
      | Except.error e =>
        ({ m with pasteError := "Failed to paste: " ++ e }, [])
    else if s = "backspace" then
      if m.vaultTokenInput ≠ "" then
        ({ m with vaultTokenInput := m.vaultTokenInput.dropRight 1 }, [])
      else (m, [])
    else if s.utf8ByteSize = 1 then
      ({ m with vaultTokenInput := m.vaultTokenInput ++ s }, [])
    else (m, [])
  | AppState.StateCategorySelection =>
    if s = "ctrl+c" ∨ s = "q" then (m, [Eff.quit])
    else if s = "up" ∨ s = "k" then
      (if m.categoryCursor > 0 then
        { m with categoryCursor := m.categoryCursor - 1 } else m, [])
    else if s = "down" ∨ s = "j" then
      (if m.categoryCursor < (m.categoryNames.length : Int) - 1 then
        { m with categoryCursor := m.categoryCursor + 1 } else m, [])
    else if s = "enter" then
      let selectedCategory := m.categoryNames.getD m.categoryCursor.toNat ""
      let serverNames :=
        sortStrings (((lookupCat m.config.Categories selectedCategory).Servers).map Prod.fst)
      ({ m with selectedCategory := selectedCategory,
                serverNames := serverNames,
                serverCursor := 0,
                state := AppState.StateServerSelection }, [])
    else (m, [])
  | AppState.StateServerSelection =>
    if s = "ctrl+c" ∨ s = "q" then (m, [Eff.quit])
    else if s = "up" ∨ s = "k" then
      (if m.serverCursor > 0 then
        { m with serverCursor := m.serverCursor - 1 } else m, [])
    else if s = "down" ∨ s = "j" then
      (if m.serverCursor < (m.serverNames.length : Int) - 1 then
        { m with serverCursor := m.serverCursor + 1 } else m, [])
    else if s = "enter" then
      let selectedServer := m.serverNames.getD m.serverCursor.toNat ""
      let serverConfig :=
        lookupServer (lookupCat m.config.Categories m.selectedCategory).Servers
          selectedServer
      ({ m with selectedServer := selectedServer,
                state := AppState.StateScriptOutput },
       [Eff.runScript selectedServer serverConfig m.vaultToken])
    else if s = "b" ∨ s = "backspace" ∨ s = "esc" then
      ({ m with state := AppState.StateCategorySelection }, [])
    else (m, [])
  | AppState.StateScriptOutput =>
    if s = "ctrl+c" ∨ s = "q" then (m, [Eff.quit])
    else if s = "b" ∨ s = "backspace" ∨ s = "esc" then
      ({ m with state := AppState.StateServerSelection,
                runOutput := "", hasError := false }, [])
    else (m, [])

/-- `ServerModel.Update` from src/main.go: one synchronous step. -/
def update (clip : Except String String) (m : ServerModel) :
    Msg → ServerModel × List Eff
  | Msg.key s => updateKey clip m s
  | Msg.vaultToken t =>
    ({ m with vaultToken := t, state := AppState.StateCategorySelection }, [])
  | Msg.vaultTokenMissing =>
    ({ m with state := AppState.StateVaultTokenInput }, [])
  | Msg.scriptOutput s => ({ m with runOutput := s }, [])
  | Msg.scriptError s => ({ m with runOutput := s, hasError := true }, [])
  | Msg.configError s =>
    ({ m with errorMessage := s }, [Eff.quit])

/-- Fold a sequence of events through `update`, keeping the model. -/
def runEvents (clip : Except String String) (m : ServerModel) :
    List Msg → ServerModel
  | [] => m
  | msg :: rest => runEvents clip (update clip m msg).1 rest

/-! ## Script runner (`runServerScript`, src/main.go lines 371-419)

The runner's branching is pure: it decides between a `bash -c` invocation
built from the inline script, a direct execution of the legacy path, and an
immediate "no script configured" failure.  `RunPlan` records that decision
(the process itself is outside the embedding). -/

/-- What `runServerScript` decides to run. -/
inductive RunPlan where
  | shellCommand (fullCommand : String)
  | execCommand (path : String) (args : List String) (extraEnv : List (String × String))
  | noScript (msg : String)
deriving Repr, DecidableEq

/-- The `export K=V; ` prefix string built for the inline-script branch:
server region, vault token, then the custom pairs in iteration order. -/
def envVarsStr (server : String) (cfg : ServerConfig) (vaultToken : String) :
    String :=
  "export SERVER_REGION=" ++ server ++ "; export VAULT_TOKEN=" ++ vaultToken
    ++ "; "
    ++ String.join (cfg.EnvVars.map (fun p => "export " ++ p.1 ++ "=" ++ p.2 ++ "; "))

/-- The resolution order of `runServerScript`: inline `Script` first, else
legacy `ScriptPath`, else fail with no process spawned. -/
def runServerScript (server : String) (cfg : ServerConfig)
    (vaultToken : String) : RunPlan :=
  if cfg.Script ≠ "" then
    RunPlan.shellCommand (envVarsStr server cfg vaultToken ++ cfg.Script)
  else if cfg.ScriptPath ≠ "" then
    RunPlan.execCommand cfg.ScriptPath cfg.ScriptArgs
      ([("SERVER_REGION", server), ("VAULT_TOKEN", vaultToken)] ++ cfg.EnvVars)
  else
    RunPlan.noScript "No script or script_path defined for this server"

/-- Whether the plan spawns a child process. -/
def spawnsProcess : RunPlan → Bool
  | RunPlan.shellCommand _ => true
  | RunPlan.execCommand _ _ _ => true
  | RunPlan.noScript _ => false

/-! ## Configuration loading (`LoadConfig` / `initialSetup`, src/main.go
lines 354-368 and 430-463)

A parsed YAML document is embedded as `Yaml`; `decodeConfig` follows
`yaml.Unmarshal` into the `Config` struct: unknown top-level keys are
ignored, an absent `categories` key leaves the field at its zero value
(the nil map), and a present key of the wrong shape is a decode error. -/

/-- A parsed YAML document. -/
inductive Yaml where
  | str (s : String)
  | list (xs : List Yaml)
  | map (entries : List (String × Yaml))

/-- First binding of a key in a YAML mapping. -/
def lookupYaml : List (String × Yaml) → String → Option Yaml
  | [], _ => none
  | (k, v) :: rest, key => if k = key then some v else lookupYaml rest key

/-- Decode a YAML scalar into a Go `string` field. -/
def decodeStr : Yaml → Option String
  | Yaml.str s => some s
  | _ => none

/-- Decode a YAML sequence into a Go `[]string` field. -/
def decodeStrList : Yaml → Option (List String)
  | Yaml.list xs => xs.mapM decodeStr
  | _ => none

/-- Decode a YAML mapping into a Go `map[string]string` field. -/
def decodeStrMap : Yaml → Option (List (String × String))
  | Yaml.map es => es.mapM (fun p => (decodeStr p.2).map (fun v => (p.1, v)))
  | _ => none

/-- Struct-field decoding: an absent key yields the Go zero value `z`. -/
def optField {α : Type} (es : List (String × Yaml)) (k : String)
    (dec : Yaml → Option α) (z : α) : Option α :=
  match lookupYaml es k with
  | none => some z
  | some y => dec y

/-- `yaml.Unmarshal` into `ServerConfig`. -/
def decodeServerConfig : Yaml → Option ServerConfig
  | Yaml.map es => do
    let script ← optField es "script" decodeStr ""
    let scriptPath ← optField es "script_path" decodeStr ""
    let scriptArgs ← optField es "script_args" decodeStrList []
    let envVars ← optField es "env_vars" decodeStrMap []
    let description ← optField es "description" decodeStr ""
    some ⟨script, scriptPath, scriptArgs, envVars, description⟩
  | _ => none

/-- `yaml.Unmarshal` into `CategoryConfig`. -/
def decodeCategoryConfig : Yaml → Option CategoryConfig
  | Yaml.map es => do
    let description ← optField es "description" decodeStr ""
    let servers ← optField es "servers"
      (fun y => match y with
        | Yaml.map ses =>
          ses.mapM (fun p => (decodeServerConfig p.2).map (fun v => (p.1, v)))
        | _ => none) []
    some ⟨description, servers⟩
  | _ => none

/-- `yaml.Unmarshal` into `Config`: only the `categories` key is read;
every other top-level key is ignored, and when `categories` is absent the
field keeps its zero value (no categories). -/
def decodeConfig : Yaml → Option Config
  | Yaml.map es => do
    let categories ← optField es "categories"
      (fun y => match y with
        | Yaml.map ces =>
          ces.mapM (fun p => (decodeCategoryConfig p.2).map (fun v => (p.1, v)))
        | _ => none) []
    some ⟨categories⟩
  | _ => none

/-- `LoadConfig` from src/main.go over an already-read file: a read failure
becomes `could not read config file: ...`; a document that does not decode
becomes `could not parse YAML config file` (Go appends the YAML error's
text, which the embedding leaves out). -/
def LoadConfig (file : Except String Yaml) : Except String Config :=
  match file with
  | Except.error e => Except.error ("could not read config file: " ++ e)
  | Except.ok doc =>
    match decodeConfig doc with
    | none => Except.error "could not parse YAML config file"
    | some config => Except.ok config

/-- `initialSetup` from src/main.go, from the result of `LoadConfig`: a load
error or an empty category map produce a model holding only the fatal
`errorMessage`; otherwise the category names are sorted and the model starts
in `StateVaultTokenInput` with both cursors at 0. -/
def initialSetup (loadResult : Except String Config) : ServerModel :=
  match loadResult with
  | Except.error e => { ServerModel.zero with errorMessage := e }
  | Except.ok config =>
    let categoryNames := config.Categories.map Prod.fst
    if categoryNames.length = 0 then
      { ServerModel.zero with
          errorMessage := "No categories defined in configuration" }
    else
      { ServerModel.zero with
          config := config,
          categoryNames := sortStrings categoryNames,
          state := AppState.StateVaultTokenInput,
          vaultTokenInput := "",
          categoryCursor := 0,
          serverCursor := 0 }

/-- The state a run of the program starts in when the configuration `c`
loaded successfully. -/
def initialModel (c : Config) : ServerModel :=
  initialSetup (Except.ok c)

/-! ## View (`ServerModel.View`, src/main.go lines 242-344)

Each lipgloss style's `Render` wraps its text in content-independent
decoration; the embedding keeps the text itself, so every style is the
identity on the text. -/

/-- `titleStyle.Render`, embedded as identity on the text. -/
def titleStyle (s : String) : String := s

/-- `itemStyle.Render`, embedded as identity on the text. -/
def itemStyle (s : String) : String := s

/-- `selectedItemStyle.Render`, embedded as identity on the text. -/
def selectedItemStyle (s : String) : String := s

/-- `infoStyle.Render`, embedded as identity on the text. -/
def infoStyle (s : String) : String := s

/-- `errorStyle.Render`, embedded as identity on the text. -/
def errorStyle (s : String) : String := s

/-- `promptStyle.Render`, embedded as identity on the text. -/
def promptStyle (s : String) : String := s

/-- `inputStyle.Render`, embedded as identity on the text. -/
def inputStyle (s : String) : String := s

/-- `categoryStyle.Render`, embedded as identity on the text. -/
def categoryStyle (s : String) : String := s

/-- The masked token shown on the token-entry screen:
`strings.Repeat("*", len(m.vaultTokenInput))` — one `*` per UTF-8 byte of
the buffer (Go `len` counts bytes). -/
def maskedInput (m : ServerModel) : String :=
  String.mk (List.replicate m.vaultTokenInput.utf8ByteSize '*')

/-- One line of the category list in the category-selection view, from the
category cursor and the categories mapping. -/
def categoryLine (cursorPos : Int) (cats : List (String × CategoryConfig))
    (i : Nat) (categoryName : String) : String :=
  let cursor := if cursorPos = (i : Int) then ">" else " "
  let desc := (lookupCat cats categoryName).Description
  let categoryInfo :=
    if desc ≠ "" then categoryName ++ " - " ++ desc else categoryName
  (if cursorPos = (i : Int) then
    selectedItemStyle (cursor ++ " " ++ categoryInfo)
   else itemStyle (cursor ++ " " ++ categoryInfo)) ++ "\n"

/-- One line of the server list in the server-selection view, from the
server cursor and the selected category's server mapping. -/
def serverLine (cursorPos : Int) (servers : List (String × ServerConfig))
    (i : Nat) (serverName : String) : String :=
  let cursor := if cursorPos = (i : Int) then ">" else " "
  let desc := (lookupServer servers serverName).Description
  let serverInfo :=
    if desc ≠ "" then serverName ++ " - " ++ desc else serverName
  (if cursorPos = (i : Int) then
    selectedItemStyle (cursor ++ " " ++ serverInfo)
   else itemStyle (cursor ++ " " ++ serverInfo)) ++ "\n"

/-- `ServerModel.View` from src/main.go: a non-empty `errorMessage`
overrides everything; otherwise the view follows the current state. -/
def view (m : ServerModel) : String :=
  if m.errorMessage ≠ "" then
    errorStyle ("Configuration Error: " ++ m.errorMessage)
  else
    match m.state with
    | AppState.StateVaultTokenInput =>
      titleStyle "Vault Authentication" ++ "\n\n"
        ++ promptStyle "VAULT_TOKEN environment variable is not set." ++ "\n"
        ++ promptStyle "Please enter your Vault token:" ++ "\n\n"
        ++ inputStyle ("> " ++ maskedInput m)
        ++ "\n\n"
        ++ infoStyle "Type or paste (⌘V on macOS, Ctrl+V on Windows/Linux) your token, then press Enter"
        ++ (if m.pasteError ≠ "" then "\n" ++ errorStyle m.pasteError else "")
    | AppState.StateCategorySelection =>
      titleStyle "Category Selection" ++ "\n\n"
        ++ "Select a category:\n\n"
        ++ String.join (m.categoryNames.enum.map
            (fun p => categoryLine m.categoryCursor m.config.Categories p.1 p.2))
        ++ "\n"
        ++ infoStyle "Use arrow keys or j/k to navigate, enter to select, q to quit"
    | AppState.StateServerSelection =>
      titleStyle "Server Selection" ++ "\n\n"
        ++ categoryStyle ("Category: " ++ m.selectedCategory) ++ "\n\n"
        ++ "Select a server region to run script:\n\n"
        ++ String.join (m.serverNames.enum.map
            (fun p => serverLine m.serverCursor
              (lookupCat m.config.Categories m.selectedCategory).Servers
              p.1 p.2))
        ++ "\n"
        ++ infoStyle "Use arrow keys or j/k to navigate, enter to select, b to go back, q to quit"
    | AppState.StateScriptOutput =>
      titleStyle "Script Output" ++ "\n\n"
        ++ categoryStyle ("Category: " ++ m.selectedCategory) ++ "\n"
        ++ "Server: " ++ m.selectedServer ++ "\n\n"
        ++ (if m.runOutput ≠ "" then
              if m.hasError then errorStyle ("Error: " ++ m.runOutput)
              else m.runOutput
            else "Running script...")
        ++ "\n\n"
        ++ infoStyle "Press 'b' to go back to server selection, q to quit"

end CliToolKit

/-! ## Supporting lemmas and the cursor invariant -/

namespace CliToolKit

theorem perm_sortStrings (l : List String) : List.Perm (sortStrings l) l :=
  @List.perm_insertionSort String (· ≤ ·) (fun a b => decStrLe a b) l

theorem sorted_sortStrings (l : List String) :
    (sortStrings l).Sorted (· ≤ ·) :=
  @List.sorted_insertionSort String (· ≤ ·) (fun a b => decStrLe a b) _ _ l

theorem sortStrings_length (l : List String) :
    (sortStrings l).length = l.length :=
  (perm_sortStrings l).length_eq

theorem mem_sortStrings {a : String} {l : List String} :
    a ∈ sortStrings l ↔ a ∈ l :=
  (perm_sortStrings l).mem_iff

theorem lookupCat_mem_of_key {l : List (String × CategoryConfig)} {k : String}
    (hk : k ∈ l.map Prod.fst) : (k, lookupCat l k) ∈ l := by
  induction l with
  | nil => simp at hk
  | cons p t ih =>
    obtain ⟨a, b⟩ := p
    by_cases hak : a = k
    · subst hak
      simp [lookupCat]
    · simp only [List.map_cons, List.mem_cons] at hk
      rcases hk with hk | hk
      · exact absurd hk.symm hak
      · simp only [lookupCat, if_neg hak]
        exact List.mem_cons_of_mem _ (ih hk)

/-- Invariant tying a reachable model to its configuration. -/
def CursorInv (c0 : Config) (m : ServerModel) : Prop :=
  m.config = c0 ∧
  m.categoryNames = sortStrings (c0.Categories.map Prod.fst) ∧
  0 ≤ m.categoryCursor ∧
  m.categoryCursor ≤ (m.categoryNames.length : Int) - 1 ∧
  0 ≤ m.serverCursor ∧
  (m.serverNames = [] ∧ m.serverCursor = 0 ∨
    m.serverCursor ≤ ((m.serverNames.length : Int) - 1))

theorem cursorInv_update (c0 : Config)
    (hsrv : ∀ p ∈ c0.Categories, p.2.Servers ≠ [])
    (clip : Except String String) (m : ServerModel) (msg : Msg)
    (h : CursorInv c0 m) : CursorInv c0 (update clip m msg).1 := by
  obtain ⟨hc, hn, h1, h2, h3, h4⟩ := h
  cases msg with
  | vaultToken t => exact ⟨hc, hn, h1, h2, h3, h4⟩
  | vaultTokenMissing => exact ⟨hc, hn, h1, h2, h3, h4⟩
  | scriptOutput s => exact ⟨hc, hn, h1, h2, h3, h4⟩
  | scriptError s => exact ⟨hc, hn, h1, h2, h3, h4⟩
  | configError s => exact ⟨hc, hn, h1, h2, h3, h4⟩
  | key s =>
    show CursorInv c0 (updateKey clip m s).1
    rcases m with ⟨cfg, catN, srvN, cc, sc, selC, selS, st, ro, he, em, vt, vti, pe⟩
    simp only at hc hn h1 h2 h3 h4
    cases st with
    | StateVaultTokenInput =>
      simp only [updateKey]
      split_ifs with h h h h h <;>
        first
          | exact ⟨hc, hn, h1, h2, h3, h4⟩
          | (cases clip <;> exact ⟨hc, hn, h1, h2, h3, h4⟩)
    | StateCategorySelection =>
      simp only [updateKey]
      split_ifs with h h hg h hg h
      · exact ⟨hc, hn, h1, h2, h3, h4⟩
      · dsimp only [CursorInv]
        exact ⟨hc, hn, by omega, by omega, h3, h4⟩
      · exact ⟨hc, hn, h1, h2, h3, h4⟩
      · dsimp only [CursorInv]
        exact ⟨hc, hn, by omega, by omega, h3, h4⟩
      · exact ⟨hc, hn, h1, h2, h3, h4⟩
      · -- enter: recompute the server list; it is non-empty by hsrv
        dsimp only [CursorInv]
        refine ⟨hc, hn, h1, h2, le_rfl, Or.inr ?_⟩
        rw [hc]
        have hidx : cc.toNat < catN.length := by omega
        have hmem : catN.getD cc.toNat "" ∈ catN := by
          rw [List.getD_eq_getElem catN "" hidx]
          exact List.getElem_mem hidx
        have hsorted : catN.getD cc.toNat "" ∈ sortStrings (c0.Categories.map Prod.fst) := by
          rw [← hn]
          exact hmem
        have hkey : catN.getD cc.toNat "" ∈ c0.Categories.map Prod.fst :=
          mem_sortStrings.mp hsorted
        have hpair := lookupCat_mem_of_key hkey
        have hne := hsrv _ hpair
        have hpos : 0 < (lookupCat c0.Categories (catN.getD cc.toNat "")).Servers.length :=
          List.length_pos.mpr hne
        rw [sortStrings_length, List.length_map]
        omega
      · exact ⟨hc, hn, h1, h2, h3, h4⟩
    | StateServerSelection =>
      simp only [updateKey]
      split_ifs with h h hg h hg h h
      · exact ⟨hc, hn, h1, h2, h3, h4⟩
      · dsimp only [CursorInv]
        rcases h4 with ⟨h4a, h4b⟩ | h4
        · omega
        · exact ⟨hc, hn, h1, h2, by omega, Or.inr (by omega)⟩
      · exact ⟨hc, hn, h1, h2, h3, h4⟩
      · dsimp only [CursorInv]
        rcases h4 with ⟨h4a, h4b⟩ | h4
        · exfalso
          rw [h4a] at hg
          simp at hg
          omega
        · exact ⟨hc, hn, h1, h2, by omega, Or.inr (by omega)⟩
      · exact ⟨hc, hn, h1, h2, h3, h4⟩
      · exact ⟨hc, hn, h1, h2, h3, h4⟩
      · exact ⟨hc, hn, h1, h2, h3, h4⟩
      · exact ⟨hc, hn, h1, h2, h3, h4⟩
    | StateScriptOutput =>
      simp only [updateKey]
      split_ifs with h h <;> exact ⟨hc, hn, h1, h2, h3, h4⟩

theorem cursorInv_runEvents (c0 : Config)
    (hsrv : ∀ p ∈ c0.Categories, p.2.Servers ≠ [])
    (clip : Except String String) (msgs : List Msg) (m : ServerModel)
    (h : CursorInv c0 m) : CursorInv c0 (runEvents clip m msgs) := by
  induction msgs generalizing m with
  | nil => exact h
  | cons msg rest ih =>
    exact ih _ (cursorInv_update c0 hsrv clip m msg h)

theorem cursorInv_initialModel (c0 : Config) (hcat : c0.Categories ≠ []) :
    CursorInv c0 (initialModel c0) := by
  have hlen : (c0.Categories.map Prod.fst).length ≠ 0 := by
    rw [List.length_map]
    exact fun h0 => hcat (List.length_eq_zero.mp h0)
  unfold initialModel initialSetup
  dsimp only
  rw [if_neg hlen]
  dsimp only [CursorInv]
  refine ⟨rfl, rfl, le_rfl, ?_, le_rfl, Or.inl ⟨rfl, rfl⟩⟩
  rw [sortStrings_length, List.length_map]
  have : 0 < c0.Categories.length := List.length_pos.mpr hcat
  omega

end CliToolKit

/-! ## Concrete fixtures used by the claim theorems -/

namespace CliToolKit

/-- A fixed clipboard outcome for runs where paste is never pressed. -/
def clip0 : Except String String := Except.error "x"

/-- A one-category, one-server configuration. -/
def cfgA : Config :=
  ⟨[("prod", ⟨"", [("east", ⟨"echo hi", "", [], [], ""⟩)]⟩)]⟩

/-- A one-category configuration with two servers, listed unsorted. -/
def cfgB : Config :=
  ⟨[("prod", ⟨"", [("west", ⟨"echo w", "", [], [], ""⟩),
                   ("east", ⟨"echo e", "", [], [], ""⟩)]⟩)]⟩

/-- Launch a script, navigate back, receive the stale failure result of the
earlier launch, then confirm the server again. -/
def traceC1 : List Msg :=
  [Msg.vaultToken "abc", Msg.key "enter", Msg.key "enter", Msg.key "b",
   Msg.scriptError "stale failure", Msg.key "enter"]

/-- A token-entry model whose buffer already holds two characters. -/
def m4 : ServerModel := { ServerModel.zero with vaultTokenInput := "ab" }

/-- A category-selection model over `cfgB`. -/
def mC : ServerModel :=
  { ServerModel.zero with
      config := cfgB, categoryNames := ["prod"],
      state := AppState.StateCategorySelection }

/-- A server-selection model holding a stale, failed script result. -/
def mS : ServerModel :=
  { ServerModel.zero with
      config := cfgA, categoryNames := ["prod"], selectedCategory := "prod",
      serverNames := ["east"], state := AppState.StateServerSelection,
      runOutput := "old output", hasError := true }

/-- A server-selection model over `cfgB` with the cursor moved off 0. -/
def mS2 : ServerModel :=
  { ServerModel.zero with
      config := cfgB, categoryNames := ["prod"], selectedCategory := "prod",
      serverNames := ["east", "west"], serverCursor := 1,
      state := AppState.StateServerSelection }

/-- A token-entry model whose buffer holds one two-byte character. -/
def m9 : ServerModel := { ServerModel.zero with vaultTokenInput := "é" }

/-- The model after a failed configuration load at startup. -/
def errModel : ServerModel := initialSetup (Except.error "boom")

/-- The flat, category-less document: servers at top level. -/
def flatEntries : List (String × Yaml) :=
  [("east", Yaml.map [("script", Yaml.str "echo hi")])]

end CliToolKit

/-! ## Claims -/

namespace CliToolKit

/-- C1, counterexample: starting from `cfgA`, launch a script, press back,
let the stale failure result of the earlier launch arrive, then confirm the
server again.  The model enters `StateScriptOutput` with a non-empty output
buffer and the error flag set, so confirming a server does not clear the
prior output or reset the error flag. -/
theorem stale_result_survives_server_confirm :
    (runEvents clip0 (initialModel cfgA) traceC1).state =
      AppState.StateScriptOutput ∧
    ¬((runEvents clip0 (initialModel cfgA) traceC1).runOutput = "" ∧
      (runEvents clip0 (initialModel cfgA) traceC1).hasError = false) ∧
    (runEvents clip0 (initialModel cfgA) traceC1).runOutput = "stale failure" ∧
    (runEvents clip0 (initialModel cfgA) traceC1).hasError = true := by
  refine ⟨rfl, ?_, rfl, rfl⟩
  decide

/-- C1, amended: confirming a server on `ServerSelection` records the
selected server, transitions to `ScriptOutput` and launches the script, but
leaves the output buffer and the error flag exactly as they were; they are
cleared only by the back transition out of `ScriptOutput`, so a stale result
event arriving after back makes them non-empty on entry into
`ScriptOutput`. -/
theorem server_confirm_records_and_launches_without_clearing
    (clip : Except String String) (m : ServerModel)
    (hst : m.state = AppState.StateServerSelection) :
    (updateKey clip m "enter").1.selectedServer =
      m.serverNames.getD m.serverCursor.toNat "" ∧
    (updateKey clip m "enter").1.state = AppState.StateScriptOutput ∧
    (updateKey clip m "enter").1.runOutput = m.runOutput ∧
    (updateKey clip m "enter").1.hasError = m.hasError ∧
    (updateKey clip m "enter").2 =
      [Eff.runScript (m.serverNames.getD m.serverCursor.toNat "")
        (lookupServer (lookupCat m.config.Categories m.selectedCategory).Servers
          (m.serverNames.getD m.serverCursor.toNat "")) m.vaultToken] := by
  obtain ⟨cfg, catN, srvN, cc, sc, selC, selS, st, ro, he, em, vt, vti, pe⟩ := m
  dsimp only at hst ⊢
  subst hst
  dsimp only [updateKey]
  rw [if_neg (by decide), if_neg (by decide), if_neg (by decide),
    if_pos (show ("enter" : String) = "enter" from rfl)]
  exact ⟨rfl, rfl, rfl, rfl, rfl⟩

/-- Witness for C1's amended theorem at the concrete state `mS`, which
holds a stale failed result. -/
theorem server_confirm_records_and_launches_without_clearing_witness :
    (updateKey clip0 mS "enter").1.state = AppState.StateScriptOutput ∧
    (updateKey clip0 mS "enter").1.runOutput = mS.runOutput ∧
    (updateKey clip0 mS "enter").1.hasError = mS.hasError := by
  have h := server_confirm_records_and_launches_without_clearing clip0 mS rfl
  exact ⟨h.2.1, h.2.2.1, h.2.2.2.1⟩

/-- C2: over every event sequence from startup (with a configuration that
has at least one category and no empty category), the category cursor stays
in [0, number of category names − 1] and the server cursor stays
non-negative and, whenever a server list exists, within
[0, number of server names − 1]; moreover an up key on the first entry and
a down key on the last entry leave the cursor unchanged. -/
theorem cursor_bounds_all_event_sequences (c0 : Config)
    (clip : Except String String)
    (hcat : c0.Categories ≠ [])
    (hsrv : ∀ p ∈ c0.Categories, p.2.Servers ≠ []) :
    (∀ msgs : List Msg,
      0 ≤ (runEvents clip (initialModel c0) msgs).categoryCursor ∧
      (runEvents clip (initialModel c0) msgs).categoryCursor ≤
        ((runEvents clip (initialModel c0) msgs).categoryNames.length : Int) - 1 ∧
      0 ≤ (runEvents clip (initialModel c0) msgs).serverCursor ∧
      ((runEvents clip (initialModel c0) msgs).serverNames ≠ [] →
        (runEvents clip (initialModel c0) msgs).serverCursor ≤
          ((runEvents clip (initialModel c0) msgs).serverNames.length : Int) - 1)) ∧
    (∀ m : ServerModel, m.state = AppState.StateCategorySelection →
      (m.categoryCursor = 0 →
        (updateKey clip m "up").1.categoryCursor = 0 ∧
        (updateKey clip m "k").1.categoryCursor = 0) ∧
      (m.categoryCursor = (m.categoryNames.length : Int) - 1 →
        (updateKey clip m "down").1.categoryCursor = m.categoryCursor ∧
        (updateKey clip m "j").1.categoryCursor = m.categoryCursor)) ∧
    (∀ m : ServerModel, m.state = AppState.StateServerSelection →
      (m.serverCursor = 0 →
        (updateKey clip m "up").1.serverCursor = 0 ∧
        (updateKey clip m "k").1.serverCursor = 0) ∧
      (m.serverCursor = (m.serverNames.length : Int) - 1 →
        (updateKey clip m "down").1.serverCursor = m.serverCursor ∧
        (updateKey clip m "j").1.serverCursor = m.serverCursor)) := by
  refine ⟨?_, ?_, ?_⟩
  · intro msgs
    obtain ⟨-, -, h1, h2, h3, h4⟩ :=
      cursorInv_runEvents c0 hsrv clip msgs _ (cursorInv_initialModel c0 hcat)
    refine ⟨h1, h2, h3, fun hne => ?_⟩
    rcases h4 with ⟨h4a, -⟩ | h4
    · exact absurd h4a hne
    · exact h4
  · intro m hst
    obtain ⟨cfg, catN, srvN, cc, sc, selC, selS, st, ro, he, em, vt, vti, pe⟩ := m
    dsimp only at hst ⊢
    subst hst
    constructor
    · intro h0
      subst h0
      constructor <;>
        (dsimp only [updateKey]
         rw [if_neg (by decide), if_pos (by decide), if_neg (by omega)])
    · intro h0
      constructor <;>
        (dsimp only [updateKey]
         rw [if_neg (by decide), if_neg (by decide), if_pos (by decide),
           if_neg (by omega)])
  · intro m hst
    obtain ⟨cfg, catN, srvN, cc, sc, selC, selS, st, ro, he, em, vt, vti, pe⟩ := m
    dsimp only at hst ⊢
    subst hst
    constructor
    · intro h0
      subst h0
      constructor <;>
        (dsimp only [updateKey]
         rw [if_neg (by decide), if_pos (by decide), if_neg (by omega)])
    · intro h0
      constructor <;>
        (dsimp only [updateKey]
         rw [if_neg (by decide), if_neg (by decide), if_pos (by decide),
           if_neg (by omega)])

/-- Witness for C2 on `cfgA`: a concrete run and a concrete no-wraparound
instance. -/
theorem cursor_bounds_all_event_sequences_witness :
    0 ≤ (runEvents clip0 (initialModel cfgA) [Msg.key "j"]).categoryCursor ∧
    (updateKey clip0 mC "up").1.categoryCursor = 0 := by
  constructor
  · exact ((cursor_bounds_all_event_sequences cfgA clip0 (by decide)
      (by decide)).1 [Msg.key "j"]).1
  · exact (((cursor_bounds_all_event_sequences cfgA clip0 (by decide)
      (by decide)).2.1 mC rfl).1 rfl).1

end CliToolKit

namespace CliToolKit

/-- C3, counterexample: the flat, category-less document decodes without a
YAML error but produces zero categories, and `initialSetup` then reports the
fatal "No categories defined in configuration" error instead of proceeding
to server selection. -/
theorem flat_config_reports_fatal_error :
    LoadConfig (Except.ok (Yaml.map flatEntries)) = Except.ok ⟨[]⟩ ∧
    (initialSetup (LoadConfig (Except.ok (Yaml.map flatEntries)))).errorMessage
      = "No categories defined in configuration" ∧
    (initialSetup (LoadConfig (Except.ok (Yaml.map flatEntries)))).state ≠
      AppState.StateServerSelection ∧
    view (initialSetup (LoadConfig (Except.ok (Yaml.map flatEntries)))) =
      "Configuration Error: No categories defined in configuration" := by
  refine ⟨rfl, rfl, by decide, rfl⟩

/-- C3, amended: a document without a top-level `categories` key (the flat
shape) loads into a configuration with zero categories, and the program then
reports the fatal configuration error; no implicit category is synthesized
and server selection is never reached. -/
theorem flat_config_zero_categories_error (es : List (String × Yaml))
    (h : lookupYaml es "categories" = none) :
    LoadConfig (Except.ok (Yaml.map es)) = Except.ok ⟨[]⟩ ∧
    (initialSetup (LoadConfig (Except.ok (Yaml.map es)))).errorMessage =
      "No categories defined in configuration" := by
  have hdec : decodeConfig (Yaml.map es) = some ⟨[]⟩ := by
    simp [decodeConfig, optField, h]
  have hload : LoadConfig (Except.ok (Yaml.map es)) = Except.ok ⟨[]⟩ := by
    simp [LoadConfig, hdec]
  refine ⟨hload, ?_⟩
  rw [hload]
  rfl

/-- Witness for C3's amended theorem at the concrete flat document. -/
theorem flat_config_zero_categories_error_witness :
    lookupYaml flatEntries "categories" = none ∧
    (initialSetup (LoadConfig (Except.ok (Yaml.map flatEntries)))).errorMessage
      = "No categories defined in configuration" :=
  ⟨rfl, (flat_config_zero_categories_error flatEntries rfl).2⟩

/-- C4, counterexample: in `StateVaultTokenInput` with buffer "ab", the
printable key "q" quits instead of being appended: the buffer stays "ab"
and the update emits the quit effect. -/
theorem q_key_quits_instead_of_appending :
    (updateKey clip0 m4 "q").1.vaultTokenInput = "ab" ∧
    ¬((updateKey clip0 m4 "q").1.vaultTokenInput = "ab" ++ "q") ∧
    (updateKey clip0 m4 "q").1.state = m4.state ∧
    (updateKey clip0 m4 "q").2 = [Eff.quit] := by
  decide

/-- C4, amended: on the token-entry screen every single-character key whose
UTF-8 encoding is one byte, other than the quit key "q", is appended to the
token input buffer and the screen stays `StateVaultTokenInput`; "q" instead
quits (the code treats it as the quit key in every state), and keys whose
encoding is longer than one byte are filtered out by the one-byte length
check. -/
theorem single_byte_keys_append_except_q (clip : Except String String)
    (m : ServerModel) (c : Char)
    (hst : m.state = AppState.StateVaultTokenInput)
    (hsz : c.utf8Size = 1) (hq : c ≠ 'q') :
    (updateKey clip m (String.mk [c])).1.vaultTokenInput =
      m.vaultTokenInput ++ String.mk [c] ∧
    (updateKey clip m (String.mk [c])).1.state =
      AppState.StateVaultTokenInput ∧
    (updateKey clip m (String.mk [c])).2 = [] := by
  have hq2 : String.mk [c] ≠ "q" := by
    intro h
    have h2 := congrArg String.data h
    simp at h2
    exact hq h2
  have hne : ∀ t : String, t.data.length ≠ 1 → String.mk [c] ≠ t := by
    intro t hlen h
    have h2 := congrArg (fun x => x.data.length) h
    simp at h2
    exact hlen h2.symm
  have hbs : (String.mk [c]).utf8ByteSize = 1 := by
    simp [String.utf8ByteSize, String.utf8ByteSize.go, hsz]
  obtain ⟨cfg, catN, srvN, cc, sc, selC, selS, st, ro, he, em, vt, vti, pe⟩ := m
  dsimp only at hst ⊢
  subst hst
  dsimp only [updateKey]
  rw [if_neg (not_or.mpr ⟨hne "ctrl+c" (by decide), hq2⟩),
    if_neg (hne "enter" (by decide)),
    if_neg (not_or.mpr ⟨hne "ctrl+v" (by decide), hne "cmd+v" (by decide)⟩),
    if_neg (hne "backspace" (by decide)),
    if_pos hbs]
  exact ⟨rfl, rfl, rfl⟩

/-- Witness for C4's amended theorem: typing 'a' over buffer "ab". -/
theorem single_byte_keys_append_except_q_witness :
    (updateKey clip0 m4 (String.mk ['a'])).1.vaultTokenInput =
      "ab" ++ String.mk ['a'] :=
  (single_byte_keys_append_except_q clip0 m4 'a' rfl (by decide) (by decide)).1

/-- C5: the Script Runner's resolution order — an inline script body wins
(even when a legacy path is also present), else the legacy path is executed
with its argument list, else the run fails with the "no script" outcome and
spawns no process. -/
theorem runServerScript_resolution_order (server : String)
    (cfg : ServerConfig) (token : String) :
    (cfg.Script ≠ "" →
      runServerScript server cfg token =
        RunPlan.shellCommand (envVarsStr server cfg token ++ cfg.Script)) ∧
    (cfg.Script = "" → cfg.ScriptPath ≠ "" →
      runServerScript server cfg token =
        RunPlan.execCommand cfg.ScriptPath cfg.ScriptArgs
          ([("SERVER_REGION", server), ("VAULT_TOKEN", token)] ++ cfg.EnvVars)) ∧
    (cfg.Script = "" → cfg.ScriptPath = "" →
      runServerScript server cfg token =
        RunPlan.noScript "No script or script_path defined for this server" ∧
      spawnsProcess (runServerScript server cfg token) = false) := by
  refine ⟨fun h1 => ?_, fun h1 h2 => ?_, fun h1 h2 => ?_⟩
  · simp [runServerScript, h1]
  · simp [runServerScript, h1, h2]
  · constructor
    · simp [runServerScript, h1, h2]
    · simp [runServerScript, spawnsProcess, h1, h2]

/-- Witness for C5: a spec carrying both forms resolves to the inline
script; the zero spec fails with no process spawned. -/
theorem runServerScript_resolution_order_witness :
    runServerScript "s" ⟨"echo hi", "/bin/x", [], [], ""⟩ "t" =
      RunPlan.shellCommand
        "export SERVER_REGION=s; export VAULT_TOKEN=t; echo hi" ∧
    spawnsProcess (runServerScript "e" ServerConfig.zero "t") = false := by
  constructor
  · rw [(runServerScript_resolution_order "s" ⟨"echo hi", "/bin/x", [], [], ""⟩
      "t").1 (by decide)]
    rfl
  · exact ((runServerScript_resolution_order "e" ServerConfig.zero "t").2.2
      rfl rfl).2

end CliToolKit

namespace CliToolKit

/-- C6, counterexample: after a fatal configuration error at startup, a
non-quit input event is not ignored — typing "a" changes the token input
buffer, a field of the session state. -/
theorem error_state_still_processes_input :
    errModel.errorMessage ≠ "" ∧
    (update clip0 errModel (Msg.key "a")).1.vaultTokenInput = "a" ∧
    errModel.vaultTokenInput = "" := by
  decide

/-- C6, amended: a non-empty stored error message overrides all rendering
(the view is the dedicated error screen regardless of any other field), but
the update step ignores the `errorMessage` field entirely: every key event
is processed exactly as in the error-free state, so input can still change
session-state fields and trigger effects; only the rendering is
overridden. -/
theorem error_message_overrides_view_not_update :
    (∀ m : ServerModel, m.errorMessage ≠ "" →
      view m = errorStyle ("Configuration Error: " ++ m.errorMessage)) ∧
    (∀ (clip : Except String String) (m : ServerModel) (s e : String),
      (updateKey clip { m with errorMessage := e } s).1 =
        { (updateKey clip m s).1 with errorMessage := e } ∧
      (updateKey clip { m with errorMessage := e } s).2 =
        (updateKey clip m s).2) := by
  constructor
  · intro m h
    rw [view, if_pos h]
  · intro clip m s e
    obtain ⟨cfg, catN, srvN, cc, sc, selC, selS, st, ro, he, em, vt, vti, pe⟩ := m
    cases st <;>
      dsimp only [updateKey] <;>
      split_ifs <;>
      first
        | exact ⟨rfl, rfl⟩
        | (cases clip <;> exact ⟨rfl, rfl⟩)

/-- Witness for C6's amended theorem at `errModel` and a concrete key. -/
theorem error_message_overrides_view_not_update_witness :
    view errModel =
      errorStyle ("Configuration Error: " ++ errModel.errorMessage) ∧
    (updateKey clip0 { m4 with errorMessage := "boom" } "q").1 =
      { (updateKey clip0 m4 "q").1 with errorMessage := "boom" } := by
  exact ⟨error_message_overrides_view_not_update.1 errModel (by decide),
    (error_message_overrides_view_not_update.2 clip0 m4 "q" "boom").1⟩

/-- C7: confirming on `CategorySelection` records the category under the
cursor, recomputes the server name list as the lexicographically sorted keys
of that category's server mapping (sorted, and a permutation of the keys),
resets the server cursor to 0 and moves to `ServerSelection`; and pressing
back from `ServerSelection` then re-confirming the same category reproduces
the identical server list with the cursor reset to 0, regardless of the
server cursor before going back. -/
theorem category_confirm_sorted_reset_idempotent
    (clip : Except String String) :
    (∀ m : ServerModel, m.state = AppState.StateCategorySelection →
      (updateKey clip m "enter").1.selectedCategory =
        m.categoryNames.getD m.categoryCursor.toNat "" ∧
      (updateKey clip m "enter").1.serverNames =
        sortStrings
          ((lookupCat m.config.Categories
            (m.categoryNames.getD m.categoryCursor.toNat "")).Servers.map
            Prod.fst) ∧
      (updateKey clip m "enter").1.serverNames.Sorted (· ≤ ·) ∧
      List.Perm (updateKey clip m "enter").1.serverNames
        ((lookupCat m.config.Categories
          (m.categoryNames.getD m.categoryCursor.toNat "")).Servers.map
          Prod.fst) ∧
      (updateKey clip m "enter").1.serverCursor = 0 ∧
      (updateKey clip m "enter").1.state = AppState.StateServerSelection) ∧
    (∀ m : ServerModel, m.state = AppState.StateServerSelection →
      m.selectedCategory = m.categoryNames.getD m.categoryCursor.toNat "" →
      m.serverNames =
        sortStrings
          ((lookupCat m.config.Categories m.selectedCategory).Servers.map
            Prod.fst) →
      (updateKey clip (updateKey clip m "b").1 "enter").1.serverNames =
        m.serverNames ∧
      (updateKey clip (updateKey clip m "b").1 "enter").1.serverCursor = 0 ∧
      (updateKey clip (updateKey clip m "b").1 "enter").1.state =
        AppState.StateServerSelection) := by
  constructor
  · intro m hst
    obtain ⟨cfg, catN, srvN, cc, sc, selC, selS, st, ro, he, em, vt, vti, pe⟩ := m
    dsimp only at hst ⊢
    subst hst
    dsimp only [updateKey]
    rw [if_neg (by decide), if_neg (by decide), if_neg (by decide),
      if_pos (show ("enter" : String) = "enter" from rfl)]
    refine ⟨rfl, rfl, sorted_sortStrings _, perm_sortStrings _, rfl, rfl⟩
  · intro m hst hsel hns
    obtain ⟨cfg, catN, srvN, cc, sc, selC, selS, st, ro, he, em, vt, vti, pe⟩ := m
    dsimp only at hst hsel hns ⊢
    subst hst
    dsimp only [updateKey]
    rw [if_neg (by decide), if_neg (by decide), if_neg (by decide),
      if_neg (by decide),
      if_pos (show ("b" : String) = "b" ∨ ("b" : String) = "backspace" ∨
        ("b" : String) = "esc" from Or.inl rfl)]
    dsimp only [updateKey]
    rw [if_neg (by decide), if_neg (by decide), if_neg (by decide),
      if_pos (show ("enter" : String) = "enter" from rfl)]
    refine ⟨?_, rfl, rfl⟩
    dsimp only
    rw [hns, hsel]

/-- Witness for C7 at `mC` (confirm) and `mS2` (back then re-confirm with
the server cursor off 0): the recomputed list is the sorted keys
["east", "west"] and the cursor is back at 0. -/
theorem category_confirm_sorted_reset_idempotent_witness :
    (updateKey clip0 mC "enter").1.serverNames = ["east", "west"] ∧
    (updateKey clip0 mC "enter").1.serverCursor = 0 ∧
    (updateKey clip0 (updateKey clip0 mS2 "b").1 "enter").1.serverNames =
      mS2.serverNames ∧
    (updateKey clip0 (updateKey clip0 mS2 "b").1 "enter").1.serverCursor
      = 0 := by
  have h1 := (category_confirm_sorted_reset_idempotent clip0).1 mC rfl
  have h2 := (category_confirm_sorted_reset_idempotent clip0).2 mS2 rfl
    (by decide) (by decide)
  refine ⟨?_, h1.2.2.2.2.1, h2.1, h2.2.1⟩
  rw [h1.2.1]
  decide

/-- C8: on the token-entry screen, confirming with an empty buffer leaves
the screen on `StateVaultTokenInput`, changes none of the session-state
fields (screen, configuration, name lists, cursors, selections, token,
buffer, output, error flag, error message) and emits no effect — in
particular the VAULT_TOKEN environment variable is not written; confirming
with a non-empty buffer stores the buffer as the token, advances to
`StateCategorySelection`, and writes the environment variable to exactly
the buffer contents. -/
theorem token_confirm_empty_noop_nonempty_commits
    (clip : Except String String) (m : ServerModel)
    (hst : m.state = AppState.StateVaultTokenInput) :
    (m.vaultTokenInput = "" →
      (updateKey clip m "enter").1.state = AppState.StateVaultTokenInput ∧
      (updateKey clip m "enter").1.config = m.config ∧
      (updateKey clip m "enter").1.categoryNames = m.categoryNames ∧
      (updateKey clip m "enter").1.serverNames = m.serverNames ∧
      (updateKey clip m "enter").1.categoryCursor = m.categoryCursor ∧
      (updateKey clip m "enter").1.serverCursor = m.serverCursor ∧
      (updateKey clip m "enter").1.selectedCategory = m.selectedCategory ∧
      (updateKey clip m "enter").1.selectedServer = m.selectedServer ∧
      (updateKey clip m "enter").1.vaultToken = m.vaultToken ∧
      (updateKey clip m "enter").1.vaultTokenInput = m.vaultTokenInput ∧
      (updateKey clip m "enter").1.runOutput = m.runOutput ∧
      (updateKey clip m "enter").1.hasError = m.hasError ∧
      (updateKey clip m "enter").1.errorMessage = m.errorMessage ∧
      (updateKey clip m "enter").2 = []) ∧
    (m.vaultTokenInput ≠ "" →
      (updateKey clip m "enter").1.vaultToken = m.vaultTokenInput ∧
      (updateKey clip m "enter").1.state = AppState.StateCategorySelection ∧
      (updateKey clip m "enter").2 =
        [Eff.setEnv "VAULT_TOKEN" m.vaultTokenInput]) := by
  obtain ⟨cfg, catN, srvN, cc, sc, selC, selS, st, ro, he, em, vt, vti, pe⟩ := m
  dsimp only at hst ⊢
  subst hst
  dsimp only [updateKey]
  rw [if_neg (by decide), if_pos (show ("enter" : String) = "enter" from rfl)]
  constructor
  · intro hv
    rw [if_neg (by simp [hv])]
    exact ⟨rfl, rfl, rfl, rfl, rfl, rfl, rfl, rfl, rfl, rfl, rfl, rfl, rfl, rfl⟩
  · intro hv
    rw [if_pos hv]
    exact ⟨rfl, rfl, rfl⟩

/-- Witness for C8: the zero model (empty buffer) and `m4` (buffer "ab"). -/
theorem token_confirm_empty_noop_nonempty_commits_witness :
    (updateKey clip0 ServerModel.zero "enter").1.state =
      AppState.StateVaultTokenInput ∧
    (updateKey clip0 ServerModel.zero "enter").2 = [] ∧
    (updateKey clip0 m4 "enter").2 = [Eff.setEnv "VAULT_TOKEN" "ab"] := by
  have h1 := (token_confirm_empty_noop_nonempty_commits clip0
    ServerModel.zero rfl).1 rfl
  have h2 := (token_confirm_empty_noop_nonempty_commits clip0 m4 rfl).2
    (by decide)
  exact ⟨h1.1, h1.2.2.2.2.2.2.2.2.2.2.2.2.2, h2.2.2⟩

end CliToolKit

namespace CliToolKit

/-- C9, counterexample: the mask counts UTF-8 bytes, not characters.  The
buffer "é" (one character, two bytes — reachable by pasting) renders a mask
of two mask characters, so the mask length does not equal the buffer's
character count. -/
theorem mask_length_counts_bytes_not_chars :
    (maskedInput m9).length = 2 ∧
    m9.vaultTokenInput.length = 1 ∧
    (update (Except.ok "é") ServerModel.zero (Msg.key "ctrl+v")).1.vaultTokenInput
      = "é" := by
  refine ⟨rfl, rfl, rfl⟩

/-- C9, amended: the token-entry mask consists of mask characters only (one
per UTF-8 byte of the buffer, so its length equals the buffer's byte count,
not its character count), and the rendered screen depends on the buffer only
through that byte count: any two buffers of equal byte length render to
identical text. -/
theorem mask_depends_only_on_byte_length :
    (∀ m : ServerModel, ∀ ch ∈ (maskedInput m).data, ch = '*') ∧
    (∀ m : ServerModel,
      (maskedInput m).length = m.vaultTokenInput.utf8ByteSize) ∧
    (∀ (m : ServerModel) (t : String),
      m.vaultTokenInput.utf8ByteSize = t.utf8ByteSize →
      view { m with vaultTokenInput := t } = view m) := by
  refine ⟨?_, ?_, ?_⟩
  · intro m ch hch
    simpa [maskedInput] using
      List.eq_of_mem_replicate (by simpa [maskedInput] using hch)
  · intro m
    simp [maskedInput, String.length]
  · intro m t h
    obtain ⟨cfg, catN, srvN, cc, sc, selC, selS, st, ro, he, em, vt, vti, pe⟩ := m
    dsimp only at h
    cases st <;> dsimp only [view, maskedInput] <;> rw [h]

/-- Witness for C9's amended theorem at `m4` and the equal-byte-length
replacement buffer "xy". -/
theorem mask_depends_only_on_byte_length_witness :
    (maskedInput m4).length = m4.vaultTokenInput.utf8ByteSize ∧
    view { m4 with vaultTokenInput := "xy" } = view m4 := by
  exact ⟨mask_depends_only_on_byte_length.2.1 m4,
    mask_depends_only_on_byte_length.2.2 m4 "xy" (by decide)⟩

/-- C10: in `CategorySelection` and `ServerSelection`, an up or down
navigation key (up/k/down/j) changes at most the corresponding cursor: the
configuration, both name lists, both selections, the token, the token input
buffer, the script output buffer, the error flag, the error message, the
paste error and the screen are unchanged, the other cursor is unchanged,
and no effect is triggered. -/
theorem nav_keys_modify_only_their_cursor (clip : Except String String)
    (m : ServerModel) (s : String)
    (hs : s = "up" ∨ s = "k" ∨ s = "down" ∨ s = "j")
    (hst : m.state = AppState.StateCategorySelection ∨
           m.state = AppState.StateServerSelection) :
    (updateKey clip m s).1.config = m.config ∧
    (updateKey clip m s).1.categoryNames = m.categoryNames ∧
    (updateKey clip m s).1.serverNames = m.serverNames ∧
    (updateKey clip m s).1.selectedCategory = m.selectedCategory ∧
    (updateKey clip m s).1.selectedServer = m.selectedServer ∧
    (updateKey clip m s).1.vaultToken = m.vaultToken ∧
    (updateKey clip m s).1.vaultTokenInput = m.vaultTokenInput ∧
    (updateKey clip m s).1.runOutput = m.runOutput ∧
    (updateKey clip m s).1.hasError = m.hasError ∧
    (updateKey clip m s).1.errorMessage = m.errorMessage ∧
    (updateKey clip m s).1.pasteError = m.pasteError ∧
    (updateKey clip m s).1.state = m.state ∧
    (updateKey clip m s).2 = [] ∧
    (m.state = AppState.StateCategorySelection →
      (updateKey clip m s).1.serverCursor = m.serverCursor) ∧
    (m.state = AppState.StateServerSelection →
      (updateKey clip m s).1.categoryCursor = m.categoryCursor) := by
  obtain ⟨cfg, catN, srvN, cc, sc, selC, selS, st, ro, he, em, vt, vti, pe⟩ := m
  dsimp only at hst ⊢
  rcases hst with h | h <;> subst h <;>
    rcases hs with h | h | h | h <;> subst h <;>
      dsimp only [updateKey] <;>
      split_ifs <;>
      first
        | exact ⟨rfl, rfl, rfl, rfl, rfl, rfl, rfl, rfl, rfl, rfl, rfl, rfl,
            rfl, fun _ => rfl, fun _ => rfl⟩
        | simp_all

/-- Witness for C10 at `mS2` with the key "j". -/
theorem nav_keys_modify_only_their_cursor_witness :
    (updateKey clip0 mS2 "j").1.serverNames = mS2.serverNames ∧
    (updateKey clip0 mS2 "j").1.state = mS2.state ∧
    (updateKey clip0 mS2 "j").2 = [] ∧
    (updateKey clip0 mS2 "j").1.categoryCursor = mS2.categoryCursor := by
  have h := nav_keys_modify_only_their_cursor clip0 mS2 "j"
    (Or.inr (Or.inr (Or.inr rfl))) (Or.inr rfl)
  exact ⟨h.2.2.1, h.2.2.2.2.2.2.2.2.2.2.2.1, h.2.2.2.2.2.2.2.2.2.2.2.2.1,
    h.2.2.2.2.2.2.2.2.2.2.2.2.2.2 rfl⟩

end CliToolKit
